import Mathlib

/-!
Shallow embedding of the Fayda ID-card generation pipeline from `app.py`
(pypdf variant) and `fayda-bot-render/app.py` (fitz variant).

The pipeline stages modelled here, straight from the source:
text cleaning (`strip` / `replace`), lenient JSON parsing (`json.loads`),
field extraction with `or`-chained alias lookups, the value cleanup loop,
the QR-region probe loops, the placeholder behaviour of
`extract_image_from_pdf`, the render-time address truncation, and the
timestamped output-file naming.

External native libraries that rasterize pixels (PyMuPDF page rendering,
PIL font drawing) and the barcode decoder (pyzbar) are abstracted as
explicit function parameters; everything else is translated directly.
-/

namespace Fayda

/-- Single-quote character (code 39). -/
def sqC : Char := Char.ofNat 39

/-- Double-quote character (code 34). -/
def dqC : Char := Char.ofNat 34

/-- Backslash character (code 92). -/
def bsC : Char := Char.ofNat 92

/-- Left curly brace character (code 123). -/
def lbC : Char := Char.ofNat 123

/-- Right curly brace character (code 125). -/
def rbC : Char := Char.ofNat 125

/-- The one-character string holding a single quote. -/
def sqS : String := ⟨[sqC]⟩

/-- The one-character string holding a double quote. -/
def dqS : String := ⟨[dqC]⟩

/-- The one-character string holding a left brace. -/
def lbS : String := ⟨[lbC]⟩

/-- The one-character string holding a right brace. -/
def rbS : String := ⟨[rbC]⟩

/-- Python `str.strip()` on a character list: drop leading and trailing
whitespace. -/
def stripChars (l : List Char) : List Char :=
  ((l.dropWhile Char.isWhitespace).reverse.dropWhile Char.isWhitespace).reverse

/-- Python `str.strip()`. -/
def pyStrip (s : String) : String := ⟨stripChars s.data⟩

/-- Python `str.replace(pat, rep)` on character lists: replace every
non-overlapping occurrence of `pat`, scanning left to right. The fuel
argument bounds recursion; each step consumes at least one character, so
fuel equal to the input length fully processes the list. -/
def replFuel (pat rep : List Char) : Nat → List Char → List Char
  | _, [] => []
  | 0, l => l
  | fuel + 1, c :: rest =>
    if pat.isPrefixOf (c :: rest) ∧ pat ≠ [] then
      rep ++ replFuel pat rep fuel ((c :: rest).drop pat.length)
    else
      c :: replFuel pat rep fuel rest

/-- Python `str.replace(pat, rep)` (all occurrences, left to right,
non-overlapping; the patterns used in the source are all non-empty). -/
def pyReplace (s pat rep : String) : String :=
  ⟨replFuel pat.data rep.data s.data.length s.data⟩

/-- JSON values as produced by `json.loads`. Numeric literals are modelled
as integers (the payloads handled by the source carry strings and integer
identifiers; float formatting is not needed by any claim). -/
inductive JsonVal where
  | jnull
  | jbool (b : Bool)
  | jnum (n : Int)
  | jstr (s : String)
  | jarr (xs : List JsonVal)
  | jobj (kvs : List (String × JsonVal))

/-- Skip JSON whitespace (space, tab, newline, carriage return). -/
def skipWs : List Char → List Char
  | c :: r =>
    if c = ' ' ∨ c = Char.ofNat 9 ∨ c = Char.ofNat 10 ∨ c = Char.ofNat 13 then
      skipWs r
    else c :: r
  | [] => []

/-- Hexadecimal digit value, for `\uXXXX` escapes. -/
def hexVal (c : Char) : Option Nat :=
  if c.isDigit then some (c.toNat - 48)
  else if 97 ≤ c.toNat ∧ c.toNat ≤ 102 then some (c.toNat - 87)
  else if 65 ≤ c.toNat ∧ c.toNat ≤ 70 then some (c.toNat - 55)
  else none

/-- Body of a JSON string literal (after the opening quote): returns the
decoded characters and the remaining input. -/
def parseStrBody : Nat → List Char → List Char → Option (List Char × List Char)
  | 0, _, _ => none
  | _ + 1, _, [] => none
  | fuel + 1, acc, c :: r =>
    if c = dqC then some (acc.reverse, r)
    else if c = bsC then
      match r with
      | [] => none
      | e :: r2 =>
        if e = dqC then parseStrBody fuel (dqC :: acc) r2
        else if e = bsC then parseStrBody fuel (bsC :: acc) r2
        else if e = Char.ofNat 47 then parseStrBody fuel (Char.ofNat 47 :: acc) r2
        else if e = 'b' then parseStrBody fuel (Char.ofNat 8 :: acc) r2
        else if e = 'f' then parseStrBody fuel (Char.ofNat 12 :: acc) r2
        else if e = 'n' then parseStrBody fuel (Char.ofNat 10 :: acc) r2
        else if e = 'r' then parseStrBody fuel (Char.ofNat 13 :: acc) r2
        else if e = 't' then parseStrBody fuel (Char.ofNat 9 :: acc) r2
        else if e = 'u' then
          match r2 with
          | h1 :: h2 :: h3 :: h4 :: r3 =>
            match hexVal h1, hexVal h2, hexVal h3, hexVal h4 with
            | some a, some b, some c2, some d =>
              parseStrBody fuel (Char.ofNat (((a * 16 + b) * 16 + c2) * 16 + d) :: acc) r3
            | _, _, _, _ => none
          | _ => none
        else none
    else parseStrBody fuel (c :: acc) r

/-- Consume a run of decimal digits, accumulating their value. -/
def parseDigits (acc : Nat) : List Char → Nat × List Char
  | c :: r => if c.isDigit then parseDigits (acc * 10 + (c.toNat - 48)) r else (acc, c :: r)
  | [] => (acc, [])

mutual

/-- Recursive-descent JSON value parsing, as `json.loads` would (objects,
arrays, strings with escapes, integer numbers, `true`, `false`, `null`). -/
def parseVal : Nat → List Char → Option (JsonVal × List Char)
  | 0, _ => none
  | fuel + 1, l =>
    match skipWs l with
    | [] => none
    | c :: r =>
      if c = dqC then
        match parseStrBody (r.length + 1) [] r with
        | some (cs, rest) => some (.jstr ⟨cs⟩, rest)
        | none => none
      else if c = 'n' then
        if r.take 3 = ['u', 'l', 'l'] then some (.jnull, r.drop 3) else none
      else if c = 't' then
        if r.take 3 = ['r', 'u', 'e'] then some (.jbool true, r.drop 3) else none
      else if c = 'f' then
        if r.take 4 = ['a', 'l', 's', 'e'] then some (.jbool false, r.drop 4) else none
      else if c = Char.ofNat 45 then
        match r with
        | d :: _ =>
          if d.isDigit then
            let (n, rest) := parseDigits 0 r
            some (.jnum (-(n : Int)), rest)
          else none
        | [] => none
      else if c.isDigit then
        let (n, rest) := parseDigits 0 (c :: r)
        some (.jnum (n : Int), rest)
      else if c = Char.ofNat 91 then
        match skipWs r with
        | d :: r2 =>
          if d = Char.ofNat 93 then some (.jarr [], r2)
          else
            match parseArrItems fuel (d :: r2) with
            | some (xs, rest) => some (.jarr xs, rest)
            | none => none
        | [] => none
      else if c = lbC then
        match skipWs r with
        | d :: r2 =>
          if d = rbC then some (.jobj [], r2)
          else
            match parseObjItems fuel (d :: r2) with
            | some (kvs, rest) => some (.jobj kvs, rest)
            | none => none
        | [] => none
      else none

/-- One or more comma-separated array items, up to the closing bracket. -/
def parseArrItems : Nat → List Char → Option (List JsonVal × List Char)
  | 0, _ => none
  | fuel + 1, l =>
    match parseVal fuel l with
    | none => none
    | some (v, rest) =>
      match skipWs rest with
      | c :: r2 =>
        if c = Char.ofNat 93 then some ([v], r2)
        else if c = Char.ofNat 44 then
          match parseArrItems fuel r2 with
          | some (xs, rest2) => some (v :: xs, rest2)
          | none => none
        else none
      | [] => none

/-- One or more comma-separated `"key": value` members, up to the closing
brace. -/
def parseObjItems : Nat → List Char → Option (List (String × JsonVal) × List Char)
  | 0, _ => none
  | fuel + 1, l =>
    match skipWs l with
    | c :: r =>
      if c = dqC then
        match parseStrBody (r.length + 1) [] r with
        | some (kcs, rest) =>
          match skipWs rest with
          | d :: r2 =>
            if d = Char.ofNat 58 then
              match parseVal fuel r2 with
              | some (v, rest2) =>
                match skipWs rest2 with
                | e :: r3 =>
                  if e = rbC then some ([(⟨kcs⟩, v)], r3)
                  else if e = Char.ofNat 44 then
                    match parseObjItems fuel r3 with
                    | some (kvs, rest3) => some ((⟨kcs⟩, v) :: kvs, rest3)
                    | none => none
                  else none
                | [] => none
              | none => none
            else none
          | [] => none
        | none => none
      else none
    | [] => none

end

/-- Python `json.loads`: parse a complete JSON document, rejecting any
trailing non-whitespace content. -/
def json_loads (s : String) : Option JsonVal :=
  match parseVal (s.data.length + 8) s.data with
  | some (v, rest) => if skipWs rest = [] then some v else none
  | none => none

/-- Python truthiness of a value produced by `json.loads`: `None`, `False`,
`0`, the empty string and empty containers are falsy. This is the test
performed by the `or`-chains in the field-extraction code. -/
def truthy : JsonVal → Bool
  | .jnull => false
  | .jbool b => b
  | .jnum n => n != 0
  | .jstr s => !s.isEmpty
  | .jarr xs => !xs.isEmpty
  | .jobj kvs => !kvs.isEmpty

/-- `data.get(k)` on the dict produced by `json.loads`: a missing key gives
Python `None`, which the source code cannot tell apart from a JSON `null`
value, so both are `jnull` here. Duplicate keys in the JSON text resolve to
the last occurrence, as in a Python dict literal. -/
def pyGet (kvs : List (String × JsonVal)) (k : String) : JsonVal :=
  (List.lookup k kvs.reverse).getD .jnull

/-- Python `repr` of one character inside a string literal, given the chosen
quote character. -/
def pyReprChar (q c : Char) : List Char :=
  if c = bsC then [bsC, bsC]
  else if c = q then [bsC, q]
  else if c = Char.ofNat 10 then [bsC, 'n']
  else if c = Char.ofNat 13 then [bsC, 'r']
  else if c = Char.ofNat 9 then [bsC, 't']
  else [c]

/-- Python `repr` of a string. -/
def pyStrRepr (s : String) : String :=
  let q := if s.data.contains sqC ∧ ¬ s.data.contains dqC then dqC else sqC
  ⟨q :: s.data.foldr (fun c acc => pyReprChar q c ++ acc) [q]⟩

mutual

/-- Python `repr` of a value produced by `json.loads` (used by `str` on
containers). String quoting follows CPython: single quotes by default,
double quotes when the text contains a single quote but no double quote;
backslashes, the quote character and tab/newline/return are escaped.
`repr` of other non-printable characters is not modelled (no claim
evaluates it). -/
def pyRepr : JsonVal → String
  | .jnull => "None"
  | .jbool true => "True"
  | .jbool false => "False"
  | .jnum n => toString n
  | .jstr s => pyStrRepr s
  | .jarr xs => "[" ++ pyReprItems xs ++ "]"
  | .jobj kvs => lbS ++ pyReprPairs kvs ++ rbS

/-- Comma-separated `repr`s of list elements. -/
def pyReprItems : List JsonVal → String
  | [] => ""
  | [x] => pyRepr x
  | x :: y :: r => pyRepr x ++ ", " ++ pyReprItems (y :: r)

/-- Comma-separated `repr`s of dict entries. -/
def pyReprPairs : List (String × JsonVal) → String
  | [] => ""
  | [(k, v)] => pyStrRepr k ++ ": " ++ pyRepr v
  | (k, v) :: p :: r => pyStrRepr k ++ ": " ++ pyRepr v ++ ", " ++ pyReprPairs (p :: r)

end

/-- Python `str` applied to a value produced by `json.loads`: the identity
on strings, `repr` otherwise. -/
def pyStr : JsonVal → String
  | .jstr s => s
  | v => pyRepr v

/-- The QR-data cleaning performed before `json.loads` in both variants:
`qr_data.strip()` followed by the four global replacements
single quote → double quote, `None` → `null`, `True` → `true`,
`False` → `false`. -/
def cleanQr (s : String) : String :=
  pyReplace (pyReplace (pyReplace (pyReplace (pyStrip s) sqS dqS)
    "None" "null") "True" "true") "False" "false"

/-- The `or`-chain over alias keys used for each canonical field:
`data.get(k1) or data.get(k2) or ... or default`. Python `or` returns its
first truthy operand, and the chain ends in a non-empty string literal. -/
def orChain (kvs : List (String × JsonVal)) : List String → String → JsonVal
  | [], d => .jstr d
  | k :: ks, d =>
    let v := pyGet kvs k
    if truthy v then v else orChain kvs ks d

/-- The `info` dict as built by `generate_fayda_id` (identical in both
variants), before the cleanup loop: eight keys, each an `or`-chain over its
alias spellings. -/
def infoDict (kvs : List (String × JsonVal)) : List (String × JsonVal) :=
  [ ("name", orChain kvs ["fullName", "full_name", "name"] "N/A"),
    ("dob", orChain kvs ["dateOfBirth", "dob", "birthDate"] "N/A"),
    ("gender", orChain kvs ["sex", "gender", "Sex"] "N/A"),
    ("id_number", orChain kvs ["nationalId", "idNumber", "FIN", "id"] "N/A"),
    ("address", orChain kvs ["address", "residentialAddress", "Address"] "N/A"),
    ("phone", orChain kvs ["phone", "phoneNumber", "mobile"] "N/A"),
    ("nationality", orChain kvs ["nationality"] "Ethiopian"),
    ("expiry", orChain kvs ["expiryDate", "dateOfExpiry", "validUntil"] "N/A") ]

/-- The per-value cleanup loop: `None` becomes `"N/A"`, everything else
becomes `str(value).strip()`. -/
def cleanVal : JsonVal → String
  | .jnull => "N/A"
  | v => pyStrip (pyStr v)

/-- The `info` dict after the cleanup loop: every value coerced to a
trimmed string. This is the IdentityRecord the pipeline returns. -/
def cleanedInfo (kvs : List (String × JsonVal)) : List (String × String) :=
  (infoDict kvs).map (fun p => (p.1, cleanVal p.2))

/-- The Payload Normalizer in isolation: clean the decoded text, parse it
as JSON, and build the cleaned `info` dict. `none` reflects the runs that
end in the JSON-decode error message or in the `AttributeError` raised by
`.get` on a non-dict parse result. -/
def normalizePayload (s : String) : Option (List (String × String)) :=
  match json_loads (cleanQr s) with
  | some (.jobj kvs) => some (cleanedInfo kvs)
  | _ => none

/-- Modelled from the spec (for the C4 refinement): take the value of the
first alias that is present with a truthy value, defaulting otherwise.
Compared against `orChain`, which is translated from the source. -/
def specFirstTruthy (kvs : List (String × JsonVal)) (ks : List String) (d : String) : JsonVal :=
  match (ks.map (pyGet kvs)).find? truthy with
  | some v => v
  | none => .jstr d

/-- An RGB pixel. -/
abbrev RGB := Nat × Nat × Nat

/-- A RasterPage: a decoded bitmap with a total pixel function. -/
structure Img where
  width : Nat
  height : Nat
  pix : Nat → Nat → RGB

/-- A solid white image, e.g. the placeholders built with
`Image.new("RGB", ..., color="white")`. -/
def whiteImg (w h : Nat) : Img :=
  ⟨w, h, fun _ _ => (255, 255, 255)⟩

/-- `PIL.Image.crop((l, t, r, b))`: the result is `(r - l) × (b - t)`;
pixels of the box that fall outside the source image are zero-filled
(black). PIL does not raise on an out-of-bounds box and does not clamp it:
the out-of-bounds part of the crop is padded. -/
def crop (img : Img) (l t r b : Nat) : Img :=
  ⟨r - l, b - t, fun x y =>
    if l + x < img.width ∧ t + y < img.height then img.pix (l + x) (t + y)
    else (0, 0, 0)⟩

/-- A candidate Region: an axis-aligned rectangle in page pixel
coordinates, `(left, top, right, bottom)`. -/
structure Region where
  left : Nat
  top : Nat
  right : Nat
  bottom : Nat
deriving DecidableEq, Repr

/-- Crop a Region out of a page. -/
def cropR (img : Img) (a : Region) : Img :=
  crop img a.left a.top a.right a.bottom

/-- The fixed `search_areas` list of the fitz variant
(`fayda-bot-render/app.py`): four hand-tuned rectangles, independent of the
page size. -/
def search_areas : List Region :=
  [⟨1200, 700, 1650, 1150⟩, ⟨1100, 650, 1550, 1100⟩,
   ⟨1000, 600, 1450, 1050⟩, ⟨800, 500, 1250, 950⟩]

/-- The `methods` list of `find_qr_code_in_image` (pypdf variant,
`app.py`): full image, bottom-right quadrant, top-right quadrant, center
area, computed from the page size with Python floor division. -/
def methods (w h : Nat) : List Region :=
  [⟨0, 0, w, h⟩, ⟨w / 2, h / 2, w, h⟩, ⟨w / 2, 0, w, h / 2⟩,
   ⟨w / 4, h / 4, w * 3 / 4, h * 3 / 4⟩]

/-- The QR probe loop shared by both variants: crop each candidate Region
in order, attempt a decode (`dec` abstracts pyzbar on the converted crop),
stop at the first success. The first component records the Regions whose
loop iteration actually ran a crop-and-decode; the second is the loop
result `(qr_data, qr_image, area)`. Cropping is total (PIL pads
out-of-bounds boxes instead of raising), so the `except: continue` branch
of the source is unreachable and every Region up to the first success is
probed. -/
def probeTrace (dec : Img → Option String) (img : Img) :
    List Region → List Region × Option (String × Img × Region)
  | [] => ([], none)
  | a :: rest =>
    match dec (cropR img a) with
    | some s => ([a], some (s, cropR img a, a))
    | none =>
      let (tr, res) := probeTrace dec img rest
      (a :: tr, res)

/-- Outcome of `PdfReader(io.BytesIO(pdf_bytes))` in the pypdf variant:
either the constructor raised (invalid byte stream) or it yielded a
document with some number of pages. -/
inductive PdfParse where
  | err
  | ok (numPages : Nat)

/-- `extract_image_from_pdf` of the pypdf variant (`app.py`): on a parse
failure it catches the exception and returns a fresh white 1200 × 1600
placeholder; on success it returns the same placeholder with the text
"PDF Loaded Successfully" drawn on it (`dt` abstracts the PIL text
rasterization, which alters pixels but not dimensions). The page content is
never rasterized; a RasterPage is produced for every input. -/
def extract_image_from_pdf (dt : (Nat → Nat → RGB) → Nat → Nat → RGB)
    (p : PdfParse) : Img :=
  match p with
  | .ok _ =>
    let ph := whiteImg 1200 1600
    ⟨ph.width, ph.height, dt ph.pix⟩
  | .err => whiteImg 1200 1600

/-- Outcome of `fitz.open(stream=pdf_bytes)` in the fitz variant: an
invalid stream raises; otherwise the document holds its rasterized pages
(rasterization at the configured DPI is folded into the page images). -/
inductive PdfDoc where
  | invalid
  | doc (pages : List Img)

/-- The distinct terminal outcomes of `generate_fayda_id`, by the error
string it returns. -/
inductive RunError where
  | processingError
  | qrNotFound
  | invalidQrData
deriving DecidableEq, Repr

/-- Result of one `generate_fayda_id` run: the returned value
(`(output_path, info)` or an error message) together with the files the
run wrote into `OUTPUT_DIR`. -/
structure RunOut where
  result : Except RunError (String × List (String × String))
  written : List String

/-- The output directory constant. -/
def OUTPUT_DIR : String := "data/processed"

/-- `f"fayda_id_{user_id}_{timestamp}.png"`. -/
def outputFilename (uid t : String) : String :=
  "fayda_id_" ++ uid ++ "_" ++ t ++ ".png"

/-- `os.path.join(OUTPUT_DIR, output_filename)`. -/
def outPath (uid t : String) : String :=
  OUTPUT_DIR ++ "/" ++ outputFilename uid t

/-- Field value lookup on the cleaned `info` dict (`info[key]`); per the
record invariant all eight keys are always present, so the default is
unreachable. -/
def iget (info : List (String × String)) (k : String) : String :=
  (List.lookup k info).getD ""

/-- The address display string of the fitz variant: truncated to 40
characters with an ellipsis when longer. -/
def truncAddr40 (a : String) : String :=
  if a.length > 40 then a.take 40 ++ "..." else a

/-- The eight text lines drawn onto the card by the fitz variant, in draw
order. Only the address line differs from the record value. -/
def renderedLinesFayda (info : List (String × String)) : List String :=
  [ iget info "name",
    "DOB: " ++ iget info "dob",
    "Gender: " ++ iget info "gender",
    "Expiry: " ++ iget info "expiry",
    "Phone: " ++ iget info "phone",
    "Nationality: " ++ iget info "nationality",
    "Address: " ++ truncAddr40 (iget info "address"),
    "ID: " ++ iget info "id_number" ]

/-- The eight text lines drawn by the pypdf variant; the address line is
`info["address"][:30]` plus an ellipsis when the length exceeds 30. -/
def renderedLinesPypdf (info : List (String × String)) : List String :=
  [ iget info "name",
    "DOB: " ++ iget info "dob",
    "Gender: " ++ iget info "gender",
    "Expiry: " ++ iget info "expiry",
    "Phone: " ++ iget info "phone",
    "Nationality: " ++ iget info "nationality",
    "Address: " ++ (iget info "address").take 30 ++
      (if (iget info "address").length > 30 then "..." else ""),
    "ID: " ++ iget info "id_number" ]

/-- The shared tail of both pipelines, from the decoded `qr_data` string
onward: clean, `json.loads`, extract the info dict, render, save. A JSON
decode failure returns the "Invalid QR code data" message; a parse result
that is not an object makes `data.get` raise `AttributeError`, which the
outer handler turns into the generic "Processing error" message. On
success the run writes exactly one file, `outPath uid t`, and returns its
path with the cleaned info dict. -/
def parseAndRender (s : String) (uid t : String) : RunOut :=
  match json_loads (cleanQr s) with
  | none => ⟨.error .invalidQrData, []⟩
  | some (.jobj kvs) => ⟨.ok (outPath uid t, cleanedInfo kvs), [outPath uid t]⟩
  | some _ => ⟨.error .processingError, []⟩

/-- `generate_fayda_id` of the fitz variant (`fayda-bot-render/app.py`).
`fitz.open` on an invalid stream and `doc.load_page(0)` on a zero-page
document both raise, which the outer handler turns into the
"Processing error" message. Otherwise the first page is probed over
`search_areas`; no hit returns the "QR code not found" message, a hit
proceeds to parse, render and save. The template load and the photo and
QR paste steps alter only card pixels and are not part of the returned
value or the `OUTPUT_DIR` writes. -/
def faydaGenerate (d : PdfDoc) (dec : Img → Option String)
    (uid t : String) : RunOut :=
  match d with
  | .invalid => ⟨.error .processingError, []⟩
  | .doc [] => ⟨.error .processingError, []⟩
  | .doc (pg :: _) =>
    match (probeTrace dec pg search_areas).2 with
    | none => ⟨.error .qrNotFound, []⟩
    | some (s, _, _) => parseAndRender s uid t

/-- `generate_fayda_id` of the pypdf variant (`app.py`). The Document
Loader never fails (it substitutes a placeholder image on any parse
failure); the page is probed over the size-derived `methods` list; the
`if not qr_data` check treats both a missing result and an empty decoded
string as "QR code not found". -/
def pypdfGenerate (dt : (Nat → Nat → RGB) → Nat → Nat → RGB)
    (dec : Img → Option String) (p : PdfParse) (uid t : String) : RunOut :=
  let img := extract_image_from_pdf dt p
  match (probeTrace dec img (methods img.width img.height)).2 with
  | none => ⟨.error .qrNotFound, []⟩
  | some (s, _, _) =>
    if s.isEmpty then ⟨.error .qrNotFound, []⟩
    else parseAndRender s uid t

/-! Concrete payload texts used to exercise the pipeline. They are built
from character codes so that the quoting of the original byte strings is
explicit. -/

/-- The end-to-end scenario payload, in single-quoted Python-literal
style: a dict with a `fullName` and a `nationalId` entry. -/
def samplePayload : String :=
  lbS ++ sqS ++ "fullName" ++ sqS ++ ": " ++ sqS ++ "Abebe Kebede" ++ sqS ++ ", "
    ++ sqS ++ "nationalId" ++ sqS ++ ": " ++ sqS ++ "1234567890" ++ sqS ++ rbS

/-- A single-quoted payload whose name value is the literal word `None`. -/
def nonePayload : String :=
  lbS ++ sqS ++ "fullName" ++ sqS ++ ": " ++ sqS ++ "None" ++ sqS ++ rbS

/-- A single-quoted payload whose name value carries an apostrophe
(the surname O’Neil written with a plain single quote). -/
def apostrophePayload : String :=
  lbS ++ sqS ++ "fullName" ++ sqS ++ ": " ++ sqS ++ "O" ++ sqS ++ "Neil" ++ sqS ++ rbS

/-- A single-quoted payload whose address value is 53 characters long,
exceeding the 40-character display limit of the fitz variant. -/
def longAddrPayload : String :=
  lbS ++ sqS ++ "fullName" ++ sqS ++ ": " ++ sqS ++ "Abebe" ++ sqS ++ ", "
    ++ sqS ++ "address" ++ sqS ++ ": "
    ++ sqS ++ "Bole Sub City Woreda 03 House Number 1234 Addis Ababa" ++ sqS ++ rbS

/-- The cleaned record the pipeline computes for `longAddrPayload`. -/
def longAddrInfo : List (String × String) :=
  (normalizePayload longAddrPayload).getD []

/-- A small single-quoted payload with just a name entry. -/
def smallPayload : String :=
  lbS ++ sqS ++ "name" ++ sqS ++ ": " ++ sqS ++ "Sara" ++ sqS ++ rbS

/-- The cleaned record the pipeline computes for `smallPayload`. -/
def smallInfo : List (String × String) :=
  (normalizePayload smallPayload).getD []

/-! Helper lemmas shared by the claim theorems. -/

/-- When every candidate Region decodes to nothing, the probe loop visits
the whole candidate list and reports no hit. -/
theorem probeTrace_none (dec : Img → Option String) (img : Img) :
    ∀ areas : List Region, (∀ a ∈ areas, dec (cropR img a) = none) →
      probeTrace dec img areas = (areas, none) := by
  intro areas
  induction areas with
  | nil => intro _; rfl
  | cons a rest ih =>
    intro h
    have ha : dec (cropR img a) = none := h a (by simp)
    have hr := ih (fun b hb => h b (by simp [hb]))
    simp [probeTrace, ha, hr]

/-- When no alias key holds a truthy value, the `or`-chain returns its
default string. -/
theorem orChain_default (kvs : List (String × JsonVal)) :
    ∀ (ks : List String) (d : String),
      (∀ k ∈ ks, truthy (pyGet kvs k) = false) →
      orChain kvs ks d = .jstr d := by
  intro ks
  induction ks with
  | nil => intro d _; rfl
  | cons k rest ih =>
    intro d h
    have hk : truthy (pyGet kvs k) = false := h k (by simp)
    have hr := ih d (fun b hb => h b (by simp [hb]))
    simp [orChain, hk, hr]

/-- Every character of a replacement result comes from the input or from
the replacement text. -/
theorem mem_replFuel (pat rep : List Char) :
    ∀ (fuel : Nat) (l : List Char) (c : Char),
      c ∈ replFuel pat rep fuel l → c ∈ l ∨ c ∈ rep := by
  intro fuel
  induction fuel with
  | zero =>
    intro l c hc
    cases l with
    | nil => simp [replFuel] at hc
    | cons a r => exact Or.inl (by simpa [replFuel] using hc)
  | succ f ih =>
    intro l c hc
    cases l with
    | nil => simp [replFuel] at hc
    | cons a r =>
      by_cases hp : pat.isPrefixOf (a :: r) ∧ pat ≠ []
      · rw [replFuel, if_pos hp] at hc
        rcases List.mem_append.mp hc with h1 | h2
        · exact Or.inr h1
        · rcases ih _ _ h2 with h3 | h4
          · exact Or.inl (List.drop_subset _ _ h3)
          · exact Or.inr h4
      · rw [replFuel, if_neg hp] at hc
        rcases List.mem_cons.mp hc with h1 | h2
        · exact Or.inl (h1 ▸ List.mem_cons_self a r)
        · rcases ih _ _ h2 with h3 | h4
          · exact Or.inl (List.mem_cons_of_mem a h3)
          · exact Or.inr h4

/-- Replacing every occurrence of a single character removes it entirely,
provided the replacement text does not reintroduce it and the fuel covers
the input. -/
theorem replFuel_single_not_mem (p : Char) (rep : List Char) (hp : p ∉ rep) :
    ∀ (fuel : Nat) (l : List Char), l.length ≤ fuel →
      p ∉ replFuel [p] rep fuel l := by
  intro fuel
  induction fuel with
  | zero =>
    intro l hl
    have : l = [] := List.length_eq_zero.mp (Nat.le_zero.mp hl)
    subst this
    simp [replFuel]
  | succ f ih =>
    intro l hl
    cases l with
    | nil => simp [replFuel]
    | cons a r =>
      by_cases ha : p = a
      · subst ha
        have hcond : List.isPrefixOf [p] (p :: r) ∧ ([p] : List Char) ≠ [] := by
          constructor
          · simp [List.isPrefixOf]
          · simp
        rw [replFuel, if_pos hcond]
        intro hmem
        rcases List.mem_append.mp hmem with h1 | h2
        · exact hp h1
        · have hr : r.length ≤ f := by simpa using hl
          exact ih ((p :: r).drop 1) (by simpa using hr) (by simpa using h2)
      · have hcond : ¬ (List.isPrefixOf [p] (a :: r) ∧ ([p] : List Char) ≠ []) := by
          intro hcc
          have h1 := hcc.1
          simp [List.isPrefixOf] at h1
          exact ha h1
        rw [replFuel, if_neg hcond]
        intro hmem
        rcases List.mem_cons.mp hmem with h1 | h2
        · exact ha h1
        · have hr : r.length ≤ f := by simpa using hl
          exact ih r hr h2

/-- A character absent from both the input and the replacement text is
absent from a `pyReplace` result. -/
theorem not_mem_pyReplace (s pat rep : String) (c : Char)
    (hs : c ∉ s.data) (hr : c ∉ rep.data) :
    c ∉ (pyReplace s pat rep).data := by
  intro hc
  rcases mem_replFuel pat.data rep.data _ _ _ hc with h1 | h2
  · exact hs h1
  · exact hr h2

/-- After the single-quote → double-quote replacement no single quote
remains. -/
theorem not_mem_pyReplace_sq (s : String) : sqC ∉ (pyReplace s sqS dqS).data := by
  have : sqC ∉ dqS.data := by decide
  exact replFuel_single_not_mem sqC dqS.data this s.data.length s.data (Nat.le_refl _)

/-- Output file names are injective in the timestamp for a fixed
requester id. -/
theorem outPath_inj (uid t1 t2 : String) (h : outPath uid t1 = outPath uid t2) :
    t1 = t2 := by
  have h2 : (outPath uid t1).data = (outPath uid t2).data := by rw [h]
  simp only [outPath, OUTPUT_DIR, outputFilename, String.data_append,
    List.append_assoc] at h2
  have h3 := List.append_cancel_left h2
  have h4 := List.append_cancel_left h3
  have h5 := List.append_cancel_left h4
  have h6 := List.append_cancel_left h5
  have h7 := List.append_cancel_left h6
  have h8 := List.append_cancel_right h7
  exact String.ext h8

/-- Inversion of a successful fitz-variant run: the document had a first
page, some candidate Region decoded to a payload, the cleaned payload
parsed as a JSON object, and the run returned the timestamped path with
the cleaned info dict, writing exactly that one file. -/
theorem faydaGenerate_ok_inv {d : PdfDoc} {dec : Img → Option String}
    {uid t p : String} {info : List (String × String)} {w : List String}
    (h : faydaGenerate d dec uid t = ⟨.ok (p, info), w⟩) :
    ∃ pg rest s im a kvs, d = .doc (pg :: rest) ∧
      (probeTrace dec pg search_areas).2 = some (s, im, a) ∧
      json_loads (cleanQr s) = some (.jobj kvs) ∧
      p = outPath uid t ∧ info = cleanedInfo kvs ∧ w = [outPath uid t] := by
  cases d with
  | invalid => simp [faydaGenerate] at h
  | doc pages =>
    cases pages with
    | nil => simp [faydaGenerate] at h
    | cons pg rest =>
      simp only [faydaGenerate] at h
      rcases hpr : (probeTrace dec pg search_areas).2 with _ | ⟨s, im, a⟩
      · rw [hpr] at h; simp at h
      · rw [hpr] at h
        simp only [parseAndRender] at h
        rcases hjs : json_loads (cleanQr s) with _ | v
        · rw [hjs] at h; simp at h
        · rw [hjs] at h
          cases v with
          | jobj kvs =>
            have h2 : (outPath uid t = p ∧ cleanedInfo kvs = info) ∧
                [outPath uid t] = w := by simpa [RunOut.mk.injEq] using h
            exact ⟨pg, rest, s, im, a, kvs, rfl, hpr, hjs,
              h2.1.1.symm, h2.1.2.symm, h2.2.symm⟩
          | jnull => simp at h
          | jbool b => simp at h
          | jnum n => simp at h
          | jstr s2 => simp at h
          | jarr xs => simp at h

/-- Inversion of a successful pypdf-variant run: some candidate Region of
the placeholder page decoded to a non-empty payload, the cleaned payload
parsed as a JSON object, and the run returned the timestamped path with
the cleaned info dict, writing exactly that one file. -/
theorem pypdfGenerate_ok_inv {dt : (Nat → Nat → RGB) → Nat → Nat → RGB}
    {dec : Img → Option String} {pp : PdfParse} {uid t p : String}
    {info : List (String × String)} {w : List String}
    (h : pypdfGenerate dt dec pp uid t = ⟨.ok (p, info), w⟩) :
    ∃ s im a kvs,
      (probeTrace dec (extract_image_from_pdf dt pp)
        (methods (extract_image_from_pdf dt pp).width
          (extract_image_from_pdf dt pp).height)).2 = some (s, im, a) ∧
      s.isEmpty = false ∧
      json_loads (cleanQr s) = some (.jobj kvs) ∧
      p = outPath uid t ∧ info = cleanedInfo kvs ∧ w = [outPath uid t] := by
  simp only [pypdfGenerate] at h
  rcases hpr : (probeTrace dec (extract_image_from_pdf dt pp)
      (methods (extract_image_from_pdf dt pp).width
        (extract_image_from_pdf dt pp).height)).2 with _ | ⟨s, im, a⟩
  · rw [hpr] at h; simp at h
  · rw [hpr] at h
    have h3 : (if s.isEmpty = true then (⟨.error .qrNotFound, []⟩ : RunOut)
        else parseAndRender s uid t) = ⟨.ok (p, info), w⟩ := h
    by_cases hse : s.isEmpty
    · rw [if_pos hse] at h3; simp at h3
    · rw [if_neg hse] at h3
      simp only [parseAndRender] at h3
      rcases hjs : json_loads (cleanQr s) with _ | v
      · rw [hjs] at h3; simp at h3
      · rw [hjs] at h3
        cases v with
        | jobj kvs =>
          have h2 : (outPath uid t = p ∧ cleanedInfo kvs = info) ∧
              [outPath uid t] = w := by simpa [RunOut.mk.injEq] using h3
          exact ⟨s, im, a, kvs, rfl, by simpa using hse, hjs,
            h2.1.1.symm, h2.1.2.symm, h2.2.symm⟩
        | jnull => simp at h3
        | jbool b => simp at h3
        | jnum n => simp at h3
        | jstr s2 => simp at h3
        | jarr xs => simp at h3

/-! The claim theorems. -/

/-- C1, counterexample: on a 1000 × 1000 page where no region decodes, the
out-of-bounds Region (1200, 700, 1650, 1150) is NOT excluded from the
candidate sequence actually probed — the loop crops it (PIL pads the
out-of-bounds box instead of raising) and runs a decode on it. -/
theorem c1_counterexample :
    (⟨1200, 700, 1650, 1150⟩ : Region) ∈
      (probeTrace (fun _ => none) (whiteImg 1000 1000) search_areas).1 ∧
    (whiteImg 1000 1000).width = 1000 ∧ (whiteImg 1000 1000).height = 1000 := by
  refine ⟨?_, rfl, rfl⟩
  have h : (probeTrace (fun _ => none) (whiteImg 1000 1000) search_areas).1 =
      search_areas := by
    rw [probeTrace_none (fun _ => none) (whiteImg 1000 1000) search_areas
      (fun a _ => rfl)]
  rw [h]
  decide

/-- C1, amended: a candidate Region whose coordinates fall outside the
RasterPage bounds is not skipped and not clamped: as long as no earlier
Region decodes, every Region of the fixed sequence is probed, and the
out-of-bounds part of its crop is zero-padded (black), per PIL semantics. -/
theorem c1_oob_regions_probed_not_skipped :
    (∀ (dec : Img → Option String) (img : Img),
        (∀ a ∈ search_areas, dec (cropR img a) = none) →
        (probeTrace dec img search_areas).1 = search_areas) ∧
    (∀ (img : Img) (a : Region) (x y : Nat), img.width ≤ a.left →
        (cropR img a).pix x y = (0, 0, 0)) := by
  constructor
  · intro dec img h
    rw [probeTrace_none dec img search_areas h]
  · intro img a x y hle
    have hnc : ¬ (a.left + x < img.width ∧ a.top + y < img.height) := by
      intro hc
      omega
    simp [cropR, crop, hnc]

/-- C1, witness: the amended statement at the spec scenario, a 1000 × 1000
blank page and a decoder that never fires. -/
theorem c1_witness :
    (probeTrace (fun _ => none) (whiteImg 1000 1000) search_areas).1 =
      search_areas ∧
    (cropR (whiteImg 1000 1000) ⟨1200, 700, 1650, 1150⟩).pix 0 0 = (0, 0, 0) :=
  ⟨c1_oob_regions_probed_not_skipped.1 (fun _ => none) (whiteImg 1000 1000)
      (fun _ _ => rfl),
    c1_oob_regions_probed_not_skipped.2 (whiteImg 1000 1000)
      ⟨1200, 700, 1650, 1150⟩ 0 0 (by decide)⟩

/-- C2, counterexample: in the pypdf variant an invalid byte stream does
not fail the Document Loader: a substitute 1200 × 1600 RasterPage is
produced and the pipeline continues to region location and decoding,
ending in the code-not-found error rather than a document error. -/
theorem c2_counterexample :
    (extract_image_from_pdf (fun px => px) PdfParse.err).width = 1200 ∧
    (extract_image_from_pdf (fun px => px) PdfParse.err).height = 1600 ∧
    pypdfGenerate (fun px => px) (fun _ => none) PdfParse.err "7"
        "20240101_000000" = ⟨.error .qrNotFound, []⟩ :=
  ⟨rfl, rfl, rfl⟩

/-- C2, amended: in the fitz variant an invalid or zero-page PDF aborts the
run with the generic processing error and no RasterPage; in the pypdf
variant the Document Loader never fails — every input, valid or not,
yields a 1200 × 1600 placeholder RasterPage and the pipeline continues to
region location and decoding. -/
theorem c2_loader_behaviour :
    (∀ (dt : (Nat → Nat → RGB) → Nat → Nat → RGB) (p : PdfParse),
        (extract_image_from_pdf dt p).width = 1200 ∧
        (extract_image_from_pdf dt p).height = 1600) ∧
    (∀ (dec : Img → Option String) (uid t : String),
        faydaGenerate .invalid dec uid t = ⟨.error .processingError, []⟩ ∧
        faydaGenerate (.doc []) dec uid t = ⟨.error .processingError, []⟩) ∧
    (∀ (dt : (Nat → Nat → RGB) → Nat → Nat → RGB) (dec : Img → Option String)
        (uid t : String), (∀ i, dec i = none) →
        pypdfGenerate dt dec PdfParse.err uid t = ⟨.error .qrNotFound, []⟩) := by
  refine ⟨?_, ?_, ?_⟩
  · intro dt p
    cases p <;> exact ⟨rfl, rfl⟩
  · intro dec uid t
    exact ⟨rfl, rfl⟩
  · intro dt dec uid t hdec
    simp [pypdfGenerate, probeTrace_none dec _ _ (fun a _ => hdec _)]

/-- C2, witness: the amended statement at concrete inputs. -/
theorem c2_witness :
    (extract_image_from_pdf (fun px => px) PdfParse.err).width = 1200 ∧
    faydaGenerate .invalid (fun _ => none) "9" "20240101_000001" =
      ⟨.error .processingError, []⟩ ∧
    pypdfGenerate (fun px => px) (fun _ => none) PdfParse.err "9"
        "20240101_000001" = ⟨.error .qrNotFound, []⟩ :=
  ⟨(c2_loader_behaviour.1 (fun px => px) PdfParse.err).1,
    (c2_loader_behaviour.2.1 (fun _ => none) "9" "20240101_000001").1,
    c2_loader_behaviour.2.2 (fun px => px) (fun _ => none) "9" "20240101_000001"
      (fun _ => rfl)⟩

/-- C3, counterexample: the single-quoted scenario payload normalizes with
nationality equal to "Ethiopian", not "N/A" — the nationality field has its
own default, so not every other canonical field equals the sentinel. -/
theorem c3_counterexample :
    (normalizePayload samplePayload).map (fun l => List.lookup "nationality" l) =
      some (some "Ethiopian") ∧ ("Ethiopian" : String) ≠ "N/A" :=
  ⟨rfl, by decide⟩

/-- C3, amended: the payload normalizes to name "Abebe Kebede", id number
"1234567890", every other field "N/A" except nationality, which defaults to
"Ethiopian". -/
theorem c3_scenario_normalization :
    normalizePayload samplePayload =
      some [("name", "Abebe Kebede"), ("dob", "N/A"), ("gender", "N/A"),
        ("id_number", "1234567890"), ("address", "N/A"), ("phone", "N/A"),
        ("nationality", "Ethiopian"), ("expiry", "N/A")] := rfl

/-- C4, counterexample: with a present, non-null but empty `fullName` and a
later `name` alias, the code assigns "Bob" from the later alias, not the
empty first value the claim predicts — the `or`-chain skips falsy values. -/
theorem c4_counterexample :
    pyGet [("fullName", JsonVal.jstr ""), ("name", JsonVal.jstr "Bob")]
        "fullName" = JsonVal.jstr "" ∧
    List.lookup "name"
        (cleanedInfo [("fullName", JsonVal.jstr ""), ("name", JsonVal.jstr "Bob")]) =
      some "Bob" ∧
    ("Bob" : String) ≠ "" :=
  ⟨rfl, rfl, by decide⟩

/-- C4, amended: each field takes the value of the first alias whose value
is truthy (non-null and non-falsy: empty strings, zero, false and empty
containers are skipped), defaulting to the sentinel when no alias holds a
truthy value. -/
theorem c4_first_truthy_alias (kvs : List (String × JsonVal))
    (ks : List String) (d : String) :
    orChain kvs ks d = specFirstTruthy kvs ks d := by
  induction ks with
  | nil => rfl
  | cons k rest ih =>
    by_cases hk : truthy (pyGet kvs k)
    · simp [orChain, specFirstTruthy, hk, List.find?_cons_of_pos]
    · simp only [orChain, specFirstTruthy, List.map_cons] at ih ⊢
      rw [List.find?_cons_of_neg _ (by simpa using hk)]
      simp [hk, ih]

/-- C5, counterexample: for an empty source object the nationality value is
"Ethiopian", not the sentinel "N/A" the claim requires for absent fields. -/
theorem c5_counterexample :
    List.lookup "nationality" (cleanedInfo []) = some "Ethiopian" ∧
    ("Ethiopian" : String) ≠ "N/A" :=
  ⟨rfl, by decide⟩

/-- C5, amended: every IdentityRecord carries exactly the eight canonical
keys, each mapped to a string; a field whose aliases are all absent or
null (more precisely: all falsy) gets the sentinel "N/A" — except
nationality, whose default is "Ethiopian". -/
theorem c5_record_invariant (kvs : List (String × JsonVal)) :
    (cleanedInfo kvs).map Prod.fst =
      ["name", "dob", "gender", "id_number", "address", "phone",
        "nationality", "expiry"] ∧
    ((∀ k ∈ ["fullName", "full_name", "name"], truthy (pyGet kvs k) = false) →
      List.lookup "name" (cleanedInfo kvs) = some "N/A") ∧
    ((∀ k ∈ ["dateOfBirth", "dob", "birthDate"], truthy (pyGet kvs k) = false) →
      List.lookup "dob" (cleanedInfo kvs) = some "N/A") ∧
    ((∀ k ∈ ["sex", "gender", "Sex"], truthy (pyGet kvs k) = false) →
      List.lookup "gender" (cleanedInfo kvs) = some "N/A") ∧
    ((∀ k ∈ ["nationalId", "idNumber", "FIN", "id"], truthy (pyGet kvs k) = false) →
      List.lookup "id_number" (cleanedInfo kvs) = some "N/A") ∧
    ((∀ k ∈ ["address", "residentialAddress", "Address"], truthy (pyGet kvs k) = false) →
      List.lookup "address" (cleanedInfo kvs) = some "N/A") ∧
    ((∀ k ∈ ["phone", "phoneNumber", "mobile"], truthy (pyGet kvs k) = false) →
      List.lookup "phone" (cleanedInfo kvs) = some "N/A") ∧
    ((truthy (pyGet kvs "nationality") = false) →
      List.lookup "nationality" (cleanedInfo kvs) = some "Ethiopian") ∧
    ((∀ k ∈ ["expiryDate", "dateOfExpiry", "validUntil"], truthy (pyGet kvs k) = false) →
      List.lookup "expiry" (cleanedInfo kvs) = some "N/A") := by
  refine ⟨rfl, ?_, ?_, ?_, ?_, ?_, ?_, ?_, ?_⟩
  · intro h
    have e := orChain_default kvs ["fullName", "full_name", "name"] "N/A" h
    simp only [cleanedInfo, infoDict, List.map_cons, e]
    rfl
  · intro h
    have e := orChain_default kvs ["dateOfBirth", "dob", "birthDate"] "N/A" h
    simp only [cleanedInfo, infoDict, List.map_cons, e]
    rfl
  · intro h
    have e := orChain_default kvs ["sex", "gender", "Sex"] "N/A" h
    simp only [cleanedInfo, infoDict, List.map_cons, e]
    rfl
  · intro h
    have e := orChain_default kvs ["nationalId", "idNumber", "FIN", "id"] "N/A" h
    simp only [cleanedInfo, infoDict, List.map_cons, e]
    rfl
  · intro h
    have e := orChain_default kvs ["address", "residentialAddress", "Address"] "N/A" h
    simp only [cleanedInfo, infoDict, List.map_cons, e]
    rfl
  · intro h
    have e := orChain_default kvs ["phone", "phoneNumber", "mobile"] "N/A" h
    simp only [cleanedInfo, infoDict, List.map_cons, e]
    rfl
  · intro h
    have e := orChain_default kvs ["nationality"] "Ethiopian" (by
      intro k hk
      simp at hk
      subst hk
      exact h)
    simp only [cleanedInfo, infoDict, List.map_cons, e]
    rfl
  · intro h
    have e := orChain_default kvs ["expiryDate", "dateOfExpiry", "validUntil"] "N/A" h
    simp only [cleanedInfo, infoDict, List.map_cons, e]
    rfl

/-- C5, witness: the amended invariant at the empty source object. -/
theorem c5_witness :
    (cleanedInfo []).map Prod.fst =
      ["name", "dob", "gender", "id_number", "address", "phone",
        "nationality", "expiry"] ∧
    List.lookup "name" (cleanedInfo []) = some "N/A" ∧
    List.lookup "dob" (cleanedInfo []) = some "N/A" ∧
    List.lookup "gender" (cleanedInfo []) = some "N/A" ∧
    List.lookup "id_number" (cleanedInfo []) = some "N/A" ∧
    List.lookup "address" (cleanedInfo []) = some "N/A" ∧
    List.lookup "phone" (cleanedInfo []) = some "N/A" ∧
    List.lookup "nationality" (cleanedInfo []) = some "Ethiopian" ∧
    List.lookup "expiry" (cleanedInfo []) = some "N/A" := by
  have h := c5_record_invariant []
  exact ⟨h.1, h.2.1 (by decide), h.2.2.1 (by decide), h.2.2.2.1 (by decide),
    h.2.2.2.2.1 (by decide), h.2.2.2.2.2.1 (by decide),
    h.2.2.2.2.2.2.1 (by decide), h.2.2.2.2.2.2.2.1 (by decide),
    h.2.2.2.2.2.2.2.2 (by decide)⟩

/-- C6: when no candidate Region of the rasterized page yields a decodable
payload, both pipeline variants return the code-not-found error and write
no output file — no CardArtifact is produced. -/
theorem c6_no_decode_no_artifact :
    (∀ (dec : Img → Option String) (uid t : String) (pg : Img)
        (rest : List Img),
        (∀ a ∈ search_areas, dec (cropR pg a) = none) →
        faydaGenerate (.doc (pg :: rest)) dec uid t =
          ⟨.error .qrNotFound, []⟩) ∧
    (∀ (dt : (Nat → Nat → RGB) → Nat → Nat → RGB) (dec : Img → Option String)
        (p : PdfParse) (uid t : String), (∀ i, dec i = none) →
        pypdfGenerate dt dec p uid t = ⟨.error .qrNotFound, []⟩) := by
  constructor
  · intro dec uid t pg rest h
    simp [faydaGenerate, probeTrace_none dec pg search_areas h]
  · intro dt dec p uid t h
    simp [pypdfGenerate, probeTrace_none dec _ _ (fun a _ => h _)]

/-- C6, witness: both variants on a blank page with a decoder that never
fires. -/
theorem c6_witness :
    faydaGenerate (.doc [whiteImg 1200 1600]) (fun _ => none) "7"
        "20240101_000000" = ⟨.error .qrNotFound, []⟩ ∧
    pypdfGenerate (fun px => px) (fun _ => none) (PdfParse.ok 1) "7"
        "20240101_000000" = ⟨.error .qrNotFound, []⟩ :=
  ⟨c6_no_decode_no_artifact.1 (fun _ => none) "7" "20240101_000000"
      (whiteImg 1200 1600) [] (fun _ _ => rfl),
    c6_no_decode_no_artifact.2 (fun px => px) (fun _ => none) (PdfParse.ok 1)
      "7" "20240101_000000" (fun _ => rfl)⟩

/-- C7, counterexample: the fitz variant's candidate sequence contains no
full-page Region at all (for a 1000 × 1000 page), and in the pypdf variant
the full-page Region is the FIRST candidate, not the last — the last is
the center crop. -/
theorem c7_counterexample :
    (⟨0, 0, 1000, 1000⟩ : Region) ∉ search_areas ∧
    (methods 1000 1000).head? = some ⟨0, 0, 1000, 1000⟩ ∧
    (methods 1000 1000).getLast? = some ⟨250, 250, 750, 750⟩ ∧
    (⟨250, 250, 750, 750⟩ : Region) ≠ ⟨0, 0, 1000, 1000⟩ := by
  decide

/-- C7, amended: in the pypdf variant the candidate sequence always
contains the full-page Region, but ordered full page FIRST, then the
bottom-right quadrant, the top-right quadrant and a center crop last; the
fitz variant's fixed sequence holds four bottom-right-leaning rectangles
and includes no full-page fallback. -/
theorem c7_candidate_ordering (w h : Nat) :
    ((methods w h).head? = some ⟨0, 0, w, h⟩ ∧
      (⟨0, 0, w, h⟩ : Region) ∈ methods w h ∧
      (methods w h)[1]? = some ⟨w / 2, h / 2, w, h⟩ ∧
      (methods w h)[2]? = some ⟨w / 2, 0, w, h / 2⟩ ∧
      (methods w h).getLast? = some ⟨w / 4, h / 4, w * 3 / 4, h * 3 / 4⟩) ∧
    (⟨0, 0, w, h⟩ : Region) ∉ search_areas := by
  refine ⟨⟨rfl, by simp [methods], rfl, rfl, rfl⟩, ?_⟩
  simp [search_areas, Region.mk.injEq]

/-- C8: for every successful pipeline run, in either variant, whose address
exceeds that variant's fixed display limit (40 characters in the fitz
variant, 30 in the pypdf variant), the rendered card text carries the
truncated address with an ellipsis while the returned IdentityRecord is
exactly the normalizer's output — the full untruncated address, and every
other rendered line shows the record value verbatim. -/
theorem c8_truncation_render_only :
    (∀ (d : PdfDoc) (dec : Img → Option String) (uid t p : String)
        (info : List (String × String)) (w : List String),
        faydaGenerate d dec uid t = ⟨.ok (p, info), w⟩ →
        40 < (iget info "address").length →
        (∃ kvs, info = cleanedInfo kvs) ∧
        renderedLinesFayda info =
          [ iget info "name",
            "DOB: " ++ iget info "dob",
            "Gender: " ++ iget info "gender",
            "Expiry: " ++ iget info "expiry",
            "Phone: " ++ iget info "phone",
            "Nationality: " ++ iget info "nationality",
            "Address: " ++ ((iget info "address").take 40 ++ "..."),
            "ID: " ++ iget info "id_number" ]) ∧
    (∀ (dt : (Nat → Nat → RGB) → Nat → Nat → RGB) (dec : Img → Option String)
        (pp : PdfParse) (uid t p : String)
        (info : List (String × String)) (w : List String),
        pypdfGenerate dt dec pp uid t = ⟨.ok (p, info), w⟩ →
        30 < (iget info "address").length →
        (∃ kvs, info = cleanedInfo kvs) ∧
        renderedLinesPypdf info =
          [ iget info "name",
            "DOB: " ++ iget info "dob",
            "Gender: " ++ iget info "gender",
            "Expiry: " ++ iget info "expiry",
            "Phone: " ++ iget info "phone",
            "Nationality: " ++ iget info "nationality",
            "Address: " ++ (iget info "address").take 30 ++ "...",
            "ID: " ++ iget info "id_number" ]) := by
  constructor
  · intro d dec uid t p info w hrun hlen
    obtain ⟨pg, rest, s, im, a, kvs, _, _, _, _, hinfo, _⟩ :=
      faydaGenerate_ok_inv hrun
    refine ⟨⟨kvs, hinfo⟩, ?_⟩
    simp [renderedLinesFayda, truncAddr40, hlen]
  · intro dt dec pp uid t p info w hrun hlen
    obtain ⟨s, im, a, kvs, _, _, _, _, hinfo, _⟩ := pypdfGenerate_ok_inv hrun
    refine ⟨⟨kvs, hinfo⟩, ?_⟩
    simp [renderedLinesPypdf, hlen]

/-- C8, witness: one successful run of each variant on a payload whose
address is 53 characters long. -/
theorem c8_witness :
    faydaGenerate (.doc [whiteImg 1200 1600]) (fun _ => some longAddrPayload)
        "7" "20240101_000000" =
      ⟨.ok (outPath "7" "20240101_000000", longAddrInfo),
        [outPath "7" "20240101_000000"]⟩ ∧
    pypdfGenerate (fun px => px) (fun _ => some longAddrPayload)
        (PdfParse.ok 1) "8" "20240101_000000" =
      ⟨.ok (outPath "8" "20240101_000000", longAddrInfo),
        [outPath "8" "20240101_000000"]⟩ ∧
    40 < (iget longAddrInfo "address").length ∧
    renderedLinesFayda longAddrInfo =
      [ iget longAddrInfo "name",
        "DOB: " ++ iget longAddrInfo "dob",
        "Gender: " ++ iget longAddrInfo "gender",
        "Expiry: " ++ iget longAddrInfo "expiry",
        "Phone: " ++ iget longAddrInfo "phone",
        "Nationality: " ++ iget longAddrInfo "nationality",
        "Address: " ++ ((iget longAddrInfo "address").take 40 ++ "..."),
        "ID: " ++ iget longAddrInfo "id_number" ] ∧
    renderedLinesPypdf longAddrInfo =
      [ iget longAddrInfo "name",
        "DOB: " ++ iget longAddrInfo "dob",
        "Gender: " ++ iget longAddrInfo "gender",
        "Expiry: " ++ iget longAddrInfo "expiry",
        "Phone: " ++ iget longAddrInfo "phone",
        "Nationality: " ++ iget longAddrInfo "nationality",
        "Address: " ++ (iget longAddrInfo "address").take 30 ++ "...",
        "ID: " ++ iget longAddrInfo "id_number" ] := by
  have h1 : faydaGenerate (.doc [whiteImg 1200 1600])
      (fun _ => some longAddrPayload) "7" "20240101_000000" =
      ⟨.ok (outPath "7" "20240101_000000", longAddrInfo),
        [outPath "7" "20240101_000000"]⟩ := rfl
  have h1p : pypdfGenerate (fun px => px) (fun _ => some longAddrPayload)
      (PdfParse.ok 1) "8" "20240101_000000" =
      ⟨.ok (outPath "8" "20240101_000000", longAddrInfo),
        [outPath "8" "20240101_000000"]⟩ := rfl
  have h2 : 40 < (iget longAddrInfo "address").length := by decide
  have h2p : 30 < (iget longAddrInfo "address").length := by decide
  exact ⟨h1, h1p, h2,
    (c8_truncation_render_only.1 _ _ _ _ _ _ _ h1 h2).2,
    (c8_truncation_render_only.2 _ _ _ _ _ _ _ _ h1p h2p).2⟩

/-- C9: two successful runs of either pipeline variant on the same input,
decoder and requester id at distinct timestamps produce distinct output
file names but identical IdentityRecords. -/
theorem c9_reruns_distinct_paths_same_record :
    (∀ (d : PdfDoc) (dec : Img → Option String) (uid t1 t2 p1 p2 : String)
        (i1 i2 : List (String × String)) (w1 w2 : List String),
        t1 ≠ t2 →
        faydaGenerate d dec uid t1 = ⟨.ok (p1, i1), w1⟩ →
        faydaGenerate d dec uid t2 = ⟨.ok (p2, i2), w2⟩ →
        p1 ≠ p2 ∧ i1 = i2) ∧
    (∀ (dt : (Nat → Nat → RGB) → Nat → Nat → RGB) (dec : Img → Option String)
        (pp : PdfParse) (uid t1 t2 p1 p2 : String)
        (i1 i2 : List (String × String)) (w1 w2 : List String),
        t1 ≠ t2 →
        pypdfGenerate dt dec pp uid t1 = ⟨.ok (p1, i1), w1⟩ →
        pypdfGenerate dt dec pp uid t2 = ⟨.ok (p2, i2), w2⟩ →
        p1 ≠ p2 ∧ i1 = i2) := by
  constructor
  · intro d dec uid t1 t2 p1 p2 i1 i2 w1 w2 hne h1 h2
    obtain ⟨pg, rest, s, im, a, kvs, hd, hpr, hjs, hp1, hi1, _⟩ :=
      faydaGenerate_ok_inv h1
    obtain ⟨pg2, rest2, s2, im2, a2, kvs2, hd2, hpr2, hjs2, hp2, hi2, _⟩ :=
      faydaGenerate_ok_inv h2
    subst hd
    injection hd2 with hlist
    injection hlist with hpg hrest
    subst hpg
    rw [hpr] at hpr2
    simp only [Option.some.injEq, Prod.mk.injEq] at hpr2
    obtain ⟨hs, _, _⟩ := hpr2
    subst hs
    rw [hjs] at hjs2
    simp only [Option.some.injEq, JsonVal.jobj.injEq] at hjs2
    subst hjs2
    constructor
    · rw [hp1, hp2]
      intro he
      exact hne (outPath_inj uid t1 t2 he)
    · rw [hi1, hi2]
  · intro dt dec pp uid t1 t2 p1 p2 i1 i2 w1 w2 hne h1 h2
    obtain ⟨s, im, a, kvs, hpr, _, hjs, hp1, hi1, _⟩ :=
      pypdfGenerate_ok_inv h1
    obtain ⟨s2, im2, a2, kvs2, hpr2, _, hjs2, hp2, hi2, _⟩ :=
      pypdfGenerate_ok_inv h2
    rw [hpr] at hpr2
    simp only [Option.some.injEq, Prod.mk.injEq] at hpr2
    obtain ⟨hs, _, _⟩ := hpr2
    subst hs
    rw [hjs] at hjs2
    simp only [Option.some.injEq, JsonVal.jobj.injEq] at hjs2
    subst hjs2
    constructor
    · rw [hp1, hp2]
      intro he
      exact hne (outPath_inj uid t1 t2 he)
    · rw [hi1, hi2]

/-- C9, witness: the same small payload run through each variant at two
timestamps one second apart. -/
theorem c9_witness :
    ("20240101_000000" : String) ≠ "20240101_000001" ∧
    outPath "7" "20240101_000000" ≠ outPath "7" "20240101_000001" ∧
    outPath "8" "20240101_000000" ≠ outPath "8" "20240101_000001" ∧
    smallInfo = smallInfo := by
  have hf := c9_reruns_distinct_paths_same_record.1
    (.doc [whiteImg 1200 1600]) (fun _ => some smallPayload) "7"
    "20240101_000000" "20240101_000001"
    (outPath "7" "20240101_000000") (outPath "7" "20240101_000001")
    smallInfo smallInfo
    [outPath "7" "20240101_000000"] [outPath "7" "20240101_000001"]
    (by decide) rfl rfl
  have hp := c9_reruns_distinct_paths_same_record.2
    (fun px => px) (fun _ => some smallPayload) (PdfParse.ok 1) "8"
    "20240101_000000" "20240101_000001"
    (outPath "8" "20240101_000000") (outPath "8" "20240101_000001")
    smallInfo smallInfo
    [outPath "8" "20240101_000000"] [outPath "8" "20240101_000001"]
    (by decide) rfl rfl
  exact ⟨by decide, hf.1, hp.1, hf.2⟩

/-- C10: the lenient substitutions are plain global string replacements
applied to the whole decoded text, values included: no single quote
survives cleaning for any input; a name whose value is the word `None`
reaches the record as "null" rather than verbatim; a name value carrying
an apostrophe makes the cleaned text unparseable, and the run ends in the
invalid-QR-data error. -/
theorem c10_global_substitutions :
    (∀ s : String, sqC ∉ (cleanQr s).data) ∧
    (normalizePayload nonePayload).map (fun l => List.lookup "name" l) =
      some (some "null") ∧
    json_loads (cleanQr apostrophePayload) = none ∧
    faydaGenerate (.doc [whiteImg 1200 1600]) (fun _ => some apostrophePayload)
        "7" "20240101_000000" = ⟨.error .invalidQrData, []⟩ := by
  refine ⟨?_, rfl, rfl, rfl⟩
  intro s
  have h1 := not_mem_pyReplace_sq (pyStrip s)
  have h2 := not_mem_pyReplace _ "None" "null" sqC h1 (by decide)
  have h3 := not_mem_pyReplace _ "True" "true" sqC h2 (by decide)
  exact not_mem_pyReplace _ "False" "false" sqC h3 (by decide)

end Fayda
